import Mathlib

/-!
# Verification of the innagrika field-node firmware (src/sketchs/sketch.ino)

A shallow embedding of the Arduino sketch.  The sketch is single-threaded
and fully synchronous, so every operation with an external effect
(serial output, WiFi begin, MQTT connect attempts, MQTT publishes,
delays) is recorded as an `Event` in a trace.  External inputs that the
sketch merely consumes (WiFi link status polls, MQTT connect outcomes,
DHT sensor readings, the pseudo-random source, publish return values)
are passed in as explicit oracle arguments.

Sensor floats are modelled as `Option ℚ`: `none` is the NaN sentinel
returned by a failed DHT read, `some q` a valid reading.  Blocking
retry loops (`setup_wifi`, `reconnect`) consume a finite oracle list of
poll/attempt outcomes and return `none` when the list is exhausted
before success, which models "still blocked": the function has not
returned within the observed horizon.
-/

/-- One externally observable action of the sketch. -/
inductive Event where
  /-- `Serial.print s` -/
  | serialText (s : String)
  /-- `Serial.println s` -/
  | serialLine (s : String)
  /-- `WiFi.begin(ssid, password)` -/
  | wifiBegin (ssid pw : String)
  /-- one `client.connect(clientId)` handshake attempt and its outcome -/
  | connectAttempt (clientId : String) (ok : Bool)
  /-- `client.loop()` keepalive tick -/
  | tick
  /-- `client.publish(topic, payload)` -/
  | publish (topic : String) (payload : String)
  /-- `delay(n)` in milliseconds -/
  | delayMs (n : Nat)
deriving DecidableEq

/-- sketch.ino line 10. -/
def ssid : String := "Wokwi-GUEST"

/-- sketch.ino line 11. -/
def password : String := ""

/-- sketch.ino line 12. -/
def mqtt_server : String := "test.mosquitto.org"

/-- sketch.ino line 15. -/
def topic_temp : String := "innagrika/field/raw/temperature"

/-- sketch.ino line 16. -/
def topic_humid : String := "innagrika/field/raw/humidity"

/-- sketch.ino line 17. -/
def topic_soil : String := "innagrika/field/raw/soil_moisture"

/-! ## Decimal rendering (the Arduino `String(float)` conversion)

`String(float)` on Arduino formats with exactly two digits after the
decimal point, rounding to the nearest hundredth.  The `String` class is
an external library, not part of `src/`, so its numeric-to-text
conversion is modelled here. -/

/-- The ASCII character of a decimal digit `d < 10`. -/
def digitChar (d : Nat) : Char := Char.ofNat (48 + d)

/-- Little-endian decimal digits of `n`, with explicit fuel so that the
recursion is structural (`fuel = n` always suffices). -/
def natDigitsAux : Nat → Nat → List Nat
  | 0, _ => []
  | fuel + 1, n => if n = 0 then [] else n % 10 :: natDigitsAux fuel (n / 10)

/-- Little-endian decimal digits of `n` (empty for `0`). -/
def digitsLE (n : Nat) : List Nat := natDigitsAux n n

/-- Usual decimal notation of a natural number. -/
def renderNat (n : Nat) : List Char :=
  if n = 0 then [digitChar 0] else (digitsLE n).reverse.map digitChar

/-- Modelled from the spec: the platform default numeric-to-text
conversion (`String(float)` / `Print::print(float)`, two digits after
the decimal point, sketch.ino lines 78/82/88/91-93) is library code not
present in `src/`; per the spec it rounds the reading to the nearest
hundredth.  `hundredthsOf q` is the signed number of hundredths of the
rendered value. -/
def hundredthsOf (q : ℚ) : ℤ := ⌊q * 100 + 1 / 2⌋

/-- Decimal text with exactly two digits after the decimal point, of the
value `m / 100`. -/
def renderHundredths (m : ℤ) : List Char :=
  (if m < 0 then ['-'] else []) ++ renderNat (m.natAbs / 100) ++
    ['.'] ++ [digitChar (m.natAbs / 10 % 10), digitChar (m.natAbs % 10)]

/-- Modelled from the spec: Arduino `String(float)` with its default two
decimal places (the `String` class is not part of `src/`). -/
def fmtFloat2 (q : ℚ) : String := String.mk (renderHundredths (hundredthsOf q))

/-! ## Random source -/

/-- Modelled from the spec: Arduino `random(lo, hi)` returns a uniformly
distributed integer in `[lo, hi)`; the RNG implementation is not part of
`src/`.  The oracle value `r` selects the outcome. -/
def arduinoRandom (lo hi r : Nat) : Nat := lo + r % (hi - lo)

/-- sketch.ino line 87: `float soil = random(30, 60);` — the synthetic
soil-moisture reading, a `long` stored into a `float`. -/
def soilValue (r : Nat) : ℚ := (arduinoRandom 30 60 r : Nat)

/-- sketch.ino lines 78/82/88: the JSON payload
`{"sensor_id": "<sid>", "value": <valText>}` built by string
concatenation. -/
def mkPayload (sid valText : String) : String :=
  "\x7b\"sensor_id\": \"" ++ sid ++ "\", \"value\": " ++ valText ++ "\x7d"

/-- sketch.ino lines 40-41: `"ESP32Client-" + String(random(0xffff), HEX)`. -/
def clientIdOf (r : Nat) : String :=
  "ESP32Client-" ++ String.mk (Nat.toDigits 16 (r % 65535))

/-! ## setup_wifi (sketch.ino lines 23-35) -/

/-- The `while (WiFi.status() != WL_CONNECTED)` wait loop: each oracle
entry is one status poll (`true` = `WL_CONNECTED`); the loop body is
`delay(500); Serial.print(".")`.  `none` = still waiting when the
oracle ran out. -/
def wifiWait : List Bool → Option (List Event)
  | [] => none
  | s :: rest =>
      if s then some []
      else (wifiWait rest).map (fun tr => Event.delayMs 500 :: Event.serialText "." :: tr)

/-- sketch.ino lines 23-35, `setup_wifi()`. -/
def setup_wifi (statuses : List Bool) : Option (List Event) :=
  (wifiWait statuses).map (fun tr =>
    [Event.delayMs 10, Event.serialLine "", Event.serialText "Connecting to ",
     Event.serialLine ssid, Event.wifiBegin ssid password] ++ tr ++
      [Event.serialLine "\nWiFi connected"])

/-! ## reconnect (sketch.ino lines 37-51) -/

/-- sketch.ino lines 37-51, `reconnect()`: `while (!client.connected())`
attempt `client.connect` with a fresh randomized client id; on failure
print the state code and `delay(5000)`, then retry.  Oracle entries are
`(r, ok, rc)`: the random draw for the client id, the attempt outcome,
and the `client.state()` code printed on failure.  The result is the
event trace together with the final `client.connected()` value; `none`
= still inside the loop when the oracle ran out. -/
def reconnect : Bool → List (Nat × Bool × Int) → Option (List Event × Bool)
  | true, _ => some ([], true)
  | false, [] => none
  | false, (r, ok, rc) :: rest =>
      let evs := [Event.serialText "Attempting MQTT connection...",
                  Event.connectAttempt (clientIdOf r) ok]
      if ok then
        (reconnect true rest).map (fun p =>
          (evs ++ [Event.serialLine "connected"] ++ p.1, p.2))
      else
        (reconnect false rest).map (fun p =>
          (evs ++ [Event.serialText "failed, rc=", Event.serialText (toString rc),
                   Event.serialLine " try again in 5 seconds",
                   Event.delayMs 5000] ++ p.1, p.2))

/-! ## loop (sketch.ino lines 60-96)

One invocation of `loop()`: oracle arguments are the initial
`client.connected()` value, the reconnect oracle, the two DHT readings
(`none` = NaN), the random draw for the soil simulation, and the three
publish return values (which the sketch never inspects). -/

/-- sketch.ino lines 60-96, one call of `loop()`. -/
def loop (connected : Bool) (mqttIn : List (Nat × Bool × Int))
    (h t : Option ℚ) (soilRand : Nat) (pubRes : Bool × Bool × Bool) :
    Option (List Event) :=
  match reconnect connected mqttIn with
  | none => none
  | some (tr0, _) =>
    let tr1 := tr0 ++ [Event.tick]
    match h, t with
    | some hv, some tv =>
        let payloadTemp := mkPayload "dht22_01" (fmtFloat2 tv)
        let _ok1 := pubRes.1
        let payloadHumid := mkPayload "dht22_01" (fmtFloat2 hv)
        let _ok2 := pubRes.2.1
        let soil := soilValue soilRand
        let payloadSoil := mkPayload "soil_01" (fmtFloat2 soil)
        let _ok3 := pubRes.2.2
        some (tr1 ++
          [Event.publish topic_temp payloadTemp,
           Event.publish topic_humid payloadHumid,
           Event.publish topic_soil payloadSoil,
           Event.serialText "Sent: Temp=", Event.serialText (fmtFloat2 tv),
           Event.serialText " Hum=", Event.serialText (fmtFloat2 hv),
           Event.serialText " Soil=", Event.serialLine (fmtFloat2 soil),
           Event.delayMs 5000])
    | _, _ =>
        some (tr1 ++ [Event.serialLine "Failed to read from DHT sensor!"])

/-- The publish calls of a trace, in order: `(topic, payload)` pairs. -/
def publishes : List Event → List (String × String)
  | [] => []
  | Event.publish t p :: es => (t, p) :: publishes es
  | _ :: es => publishes es

/-! ## A standard JSON parser (flat objects)

Modelled from the spec: "standard JSON parsing" used to state the
round-trip property of §8.  It covers the JSON fragment the payloads
live in: one object whose member values are strings (without escape
sequences) or decimal numbers (optional leading minus, optional
fraction part), with arbitrary whitespace between tokens.  The member
list is returned in source order, so "exactly two fields" is visible in
the result. -/

/-- The `{` character (spelled via its code point). -/
def lbrace : Char := Char.ofNat 123

/-- The `}` character (spelled via its code point). -/
def rbrace : Char := Char.ofNat 125

/-- A primitive JSON value. -/
inductive JPrim where
  | str (s : String)
  | num (q : ℚ)
deriving DecidableEq

/-- JSON insignificant whitespace. -/
def isWsChar (c : Char) : Bool := c = ' ' || c = '\t' || c = '\n' || c = '\r'

/-- Drop leading whitespace. -/
def skipWs : List Char → List Char
  | [] => []
  | c :: cs => if isWsChar c then skipWs cs else c :: cs

/-- Parse a string body after the opening quote, up to the closing
quote (escape sequences are not needed by the payloads and are
rejected). -/
def parseStrBody : List Char → Option (String × List Char)
  | [] => none
  | c :: cs =>
      if c = '"' then some ("", cs)
      else if c = '\\' then none
      else (parseStrBody cs).map (fun p => (String.mk (c :: p.1.data), p.2))

/-- Numeric value of a digit character. -/
def charVal (c : Char) : Nat := c.toNat - 48

/-- Consume leading decimal digits, returning the accumulated value,
the number of digits consumed, and the rest. -/
def parseDigitsAux : Nat → Nat → List Char → Nat × Nat × List Char
  | acc, cnt, [] => (acc, cnt, [])
  | acc, cnt, c :: cs =>
      if c.isDigit then parseDigitsAux (10 * acc + charVal c) (cnt + 1) cs
      else (acc, cnt, c :: cs)

/-- Split an optional leading minus sign. -/
def parseSign : List Char → Bool × List Char
  | [] => (false, [])
  | c :: cs => if c = '-' then (true, cs) else (false, c :: cs)

/-- Parse the unsigned part of a JSON number: integer digits and an
optional fraction part; `neg` records a sign already consumed. -/
def parseNumCore (neg : Bool) (l : List Char) : Option (ℚ × List Char) :=
  let p1 := parseDigitsAux 0 0 l
  if p1.2.1 = 0 then none
  else
    let sgn : ℚ := if neg then -1 else 1
    match p1.2.2 with
    | [] => some (sgn * (p1.1 : ℚ), [])
    | c :: cs =>
        if c = '.' then
          let p2 := parseDigitsAux 0 0 cs
          if p2.2.1 = 0 then none
          else some (sgn * ((p1.1 : ℚ) + (p2.1 : ℚ) / 10 ^ p2.2.1), p2.2.2)
        else some (sgn * (p1.1 : ℚ), c :: cs)

/-- Parse a JSON number: optional minus, integer digits, optional
fraction part. -/
def parseNum (l : List Char) : Option (ℚ × List Char) :=
  let sl := parseSign l
  parseNumCore sl.1 sl.2

/-- Parse a primitive JSON value (string or number). -/
def parsePrim (l : List Char) : Option (JPrim × List Char) :=
  match l with
  | [] => none
  | c :: cs =>
      if c = '"' then (parseStrBody cs).map (fun p => (JPrim.str p.1, p.2))
      else (parseNum (c :: cs)).map (fun p => (JPrim.num p.1, p.2))

/-- Parse one `"key" : value` member, leading whitespace allowed. -/
def parseMember (l : List Char) : Option ((String × JPrim) × List Char) :=
  match skipWs l with
  | [] => none
  | c :: cs =>
      if c = '"' then
        match parseStrBody cs with
        | none => none
        | some (k, r1) =>
            match skipWs r1 with
            | [] => none
            | d :: r2 =>
                if d = ':' then
                  match parsePrim (skipWs r2) with
                  | none => none
                  | some (v, r3) => some ((k, v), r3)
                else none
      else none

/-- Parse a comma-separated member list; `fuel` bounds the number of
members (any value at least the input length is enough). -/
def parseMembersAux : Nat → List Char → Option (List (String × JPrim) × List Char)
  | 0, _ => none
  | fuel + 1, l =>
      match parseMember l with
      | none => none
      | some (m, r) =>
          match skipWs r with
          | [] => some ([m], [])
          | c :: r2 =>
              if c = ',' then
                match parseMembersAux fuel r2 with
                | none => none
                | some (ms, r3) => some (m :: ms, r3)
              else some ([m], c :: r2)

/-- Parse a complete flat JSON object (with nothing but whitespace
after it), returning its members in source order. -/
def parseFlatObj (s : String) : Option (List (String × JPrim)) :=
  match skipWs s.data with
  | [] => none
  | c :: cs =>
      if c = lbrace then
        match skipWs cs with
        | [] => none
        | d :: ds =>
            if d = rbrace then (if skipWs ds = [] then some [] else none)
            else
              match parseMembersAux (s.data.length + 1) (d :: ds) with
              | none => none
              | some (ms, r) =>
                  match skipWs r with
                  | [] => none
                  | e :: es =>
                      if e = rbrace then (if skipWs es = [] then some ms else none)
                      else none
      else none

/-! ## Helper lemmas: digits and their characters -/

lemma digitChar_facts : ∀ d, d < 10 →
    (digitChar d).isDigit = true ∧ charVal (digitChar d) = d ∧
      isWsChar (digitChar d) = false ∧ digitChar d ≠ '"' ∧
      digitChar d ≠ '-' ∧ digitChar d ≠ '.' := by decide

lemma natDigitsAux_eq (fuel : Nat) : ∀ n, n ≤ fuel → natDigitsAux fuel n = Nat.digits 10 n := by
  induction fuel with
  | zero =>
      intro n hn
      obtain rfl : n = 0 := Nat.le_zero.mp hn
      simp [natDigitsAux]
  | succ f ih =>
      intro n hn
      by_cases h0 : n = 0
      · subst h0; simp [natDigitsAux]
      · have hdiv : n / 10 < n := Nat.div_lt_self (Nat.pos_of_ne_zero h0) (by norm_num)
        rw [natDigitsAux, if_neg h0, ih (n / 10) (by omega),
          Nat.digits_def' (by norm_num : 1 < 10) (Nat.pos_of_ne_zero h0)]

lemma digitsLE_eq (n : Nat) : digitsLE n = Nat.digits 10 n :=
  natDigitsAux_eq n n le_rfl

lemma mem_renderNat {n : Nat} {c : Char} (hc : c ∈ renderNat n) :
    ∃ d, d < 10 ∧ c = digitChar d := by
  unfold renderNat at hc
  by_cases h0 : n = 0
  · subst h0; simp at hc; exact ⟨0, by norm_num, hc⟩
  · rw [if_neg h0] at hc
    obtain ⟨d, hd, rfl⟩ := List.mem_map.mp hc
    refine ⟨d, ?_, rfl⟩
    have : d ∈ Nat.digits 10 n := by
      rw [← digitsLE_eq]; exact List.mem_reverse.mp hd
    exact Nat.digits_lt_base (by norm_num) this

lemma renderNat_ne_nil (n : Nat) : renderNat n ≠ [] := by
  unfold renderNat
  by_cases h0 : n = 0
  · simp [h0]
  · rw [if_neg h0]
    simp only [ne_eq, List.map_eq_nil_iff, List.reverse_eq_nil_iff]
    rw [digitsLE_eq]
    exact Nat.digits_ne_nil_iff_ne_zero.mpr h0

lemma renderNat_isDigit {n : Nat} {c : Char} (hc : c ∈ renderNat n) : c.isDigit = true := by
  obtain ⟨d, hd, rfl⟩ := mem_renderNat hc
  exact (digitChar_facts d hd).1

/-! ## Helper lemmas: the digit scanner -/

lemma parseDigitsAux_append (ds : List Char) (rest : List Char)
    (hds : ∀ c ∈ ds, c.isDigit = true)
    (hrest : ∀ c cs, rest = c :: cs → c.isDigit = false) :
    ∀ acc cnt, parseDigitsAux acc cnt (ds ++ rest) =
      (List.foldl (fun a c => 10 * a + charVal c) acc ds, cnt + ds.length, rest) := by
  induction ds with
  | nil =>
      intro acc cnt
      cases rest with
      | nil => simp [parseDigitsAux]
      | cons c cs => simp [parseDigitsAux, hrest c cs rfl]
  | cons c ds ih =>
      intro acc cnt
      have hc : c.isDigit = true := hds c (List.mem_cons_self c ds)
      rw [List.cons_append, parseDigitsAux, if_pos hc,
        ih (fun x hx => hds x (List.mem_cons_of_mem c hx)) (10 * acc + charVal c) (cnt + 1)]
      simp only [List.foldl_cons, List.length_cons]
      refine congrArg _ ?_
      refine congrArg (fun k => (k, rest)) ?_
      omega

lemma foldl_digitChar (bs : List Nat) : (∀ d ∈ bs, d < 10) → ∀ acc,
    List.foldl (fun a c => 10 * a + charVal c) acc (bs.map digitChar) =
      acc * 10 ^ bs.length + Nat.ofDigits 10 bs.reverse := by
  induction bs with
  | nil => intro _ acc; simp [Nat.ofDigits]
  | cons d bs ih =>
      intro hbs acc
      have hd : d < 10 := hbs d (List.mem_cons_self d bs)
      simp only [List.map_cons, List.foldl_cons, (digitChar_facts d hd).2.1,
        List.reverse_cons, List.length_cons]
      rw [ih (fun x hx => hbs x (List.mem_cons_of_mem d hx)) (10 * acc + d),
        Nat.ofDigits_append]
      simp only [List.length_reverse, Nat.ofDigits_singleton]
      ring

lemma foldl_renderNat (n : Nat) (acc : Nat) :
    List.foldl (fun a c => 10 * a + charVal c) acc (renderNat n) =
      acc * 10 ^ (renderNat n).length + n := by
  unfold renderNat
  by_cases h0 : n = 0
  · subst h0
    have hif : (if (0 : ℕ) = 0 then [digitChar 0]
        else List.map digitChar (digitsLE 0).reverse) = [digitChar 0] := if_pos rfl
    rw [hif]
    simp only [List.foldl_cons, List.foldl_nil, List.length_singleton,
      (digitChar_facts 0 (by norm_num)).2.1]
    ring
  · rw [if_neg h0]
    have hlt : ∀ d ∈ (digitsLE n).reverse, d < 10 := by
      intro d hd
      have hmem : d ∈ Nat.digits 10 n := by
        rw [← digitsLE_eq]; exact List.mem_reverse.mp hd
      exact Nat.digits_lt_base (by norm_num) hmem
    rw [foldl_digitChar (digitsLE n).reverse hlt acc]
    simp only [List.length_map, List.length_reverse, List.reverse_reverse]
    rw [digitsLE_eq, Nat.ofDigits_digits]

/-! ## Parsing back the rendered number -/

lemma skipWs_cons {c : Char} (cs : List Char) (h : isWsChar c = false) :
    skipWs (c :: cs) = c :: cs := by simp [skipWs, h]

lemma skipWs_cons_ws {c : Char} (cs : List Char) (h : isWsChar c = true) :
    skipWs (c :: cs) = skipWs cs := by simp [skipWs, h]

lemma renderHundredths_cons (m : ℤ) : ∃ c tl, renderHundredths m = c :: tl ∧
    isWsChar c = false ∧ c ≠ '"' := by
  unfold renderHundredths
  by_cases hm : m < 0
  · exact ⟨'-', _, by rw [if_pos hm]; rfl, by decide, by decide⟩
  · rw [if_neg hm]
    obtain ⟨c, tl, hN⟩ := List.exists_cons_of_ne_nil (renderNat_ne_nil (m.natAbs / 100))
    have hc : c ∈ renderNat (m.natAbs / 100) := by rw [hN]; exact List.mem_cons_self c tl
    obtain ⟨d, hd, rfl⟩ := mem_renderNat hc
    refine ⟨digitChar d,
      tl ++ ['.'] ++ [digitChar (m.natAbs / 10 % 10), digitChar (m.natAbs % 10)], ?_,
      (digitChar_facts d hd).2.2.1, (digitChar_facts d hd).2.2.2.1⟩
    rw [List.nil_append, hN]
    simp

/-- Reading `parseNum` past an explicit minus sign. -/
lemma parseNum_cons_neg (cs : List Char) : parseNum ('-' :: cs) = parseNumCore true cs := by
  simp [parseNum, parseSign]

/-- Reading `parseNum` when the head is not a minus sign. -/
lemma parseNum_cons_of_ne {c : Char} (cs : List Char) (h : c ≠ '-') :
    parseNum (c :: cs) = parseNumCore false (c :: cs) := by
  simp [parseNum, parseSign, h]

lemma parseNumCore_render (neg : Bool) (k : Nat) (fr : Nat) (rest : List Char)
    (hfr : fr < 100)
    (hrest : ∀ c cs, rest = c :: cs → c.isDigit = false ∧ c ≠ '.') :
    parseNumCore neg (renderNat k ++ ('.' :: ([digitChar (fr / 10), digitChar (fr % 10)] ++ rest))) =
      some ((if neg then (-1 : ℚ) else 1) * ((k : ℚ) + (fr : ℚ) / 100), rest) := by
  have h10 : fr / 10 < 10 := by omega
  have h1 : fr % 10 < 10 := by omega
  have hint : parseDigitsAux 0 0
      (renderNat k ++ ('.' :: ([digitChar (fr / 10), digitChar (fr % 10)] ++ rest))) =
      (k, 0 + (renderNat k).length, '.' :: ([digitChar (fr / 10), digitChar (fr % 10)] ++ rest)) := by
    rw [parseDigitsAux_append _ _ (fun c hc => renderNat_isDigit hc)
      (fun c cs h => by cases h; decide) 0 0, foldl_renderNat]
    simp
  have hfrac : parseDigitsAux 0 0
      ([digitChar (fr / 10), digitChar (fr % 10)] ++ rest) =
      (10 * (fr / 10) + fr % 10, 0 + 2, rest) := by
    rw [parseDigitsAux_append _ _ ?digits (fun c cs h => ((hrest c cs h).1)) 0 0]
    · simp [(digitChar_facts _ h10).2.1, (digitChar_facts _ h1).2.1]
    case digits =>
      intro c hc
      rcases List.mem_pair.mp hc with rfl | rfl
      · exact (digitChar_facts _ h10).1
      · exact (digitChar_facts _ h1).1
  have hlen : ¬ (0 + (renderNat k).length = 0) := by
    have := renderNat_ne_nil k
    simp only [Nat.zero_add]
    exact fun h => this (List.length_eq_zero.mp h)
  have hfold : ((10 * (fr / 10) + fr % 10 : ℕ) : ℚ) = (fr : ℚ) :=
    congrArg (fun n : ℕ => ((n : ℚ))) (show 10 * (fr / 10) + fr % 10 = fr by omega)
  unfold parseNumCore
  rw [hint]
  simp only [if_neg hlen, hfrac, hfold]
  norm_num

lemma parseNum_renderHundredths (m : ℤ) (rest : List Char)
    (hrest : ∀ c cs, rest = c :: cs → c.isDigit = false ∧ c ≠ '.') :
    parseNum (renderHundredths m ++ rest) = some ((m : ℚ) / 100, rest) := by
  have hfr : m.natAbs % 100 < 100 := Nat.mod_lt _ (by norm_num)
  have hd1 : m.natAbs % 100 / 10 = m.natAbs / 10 % 10 := by omega
  have hd2 : m.natAbs % 100 % 10 = m.natAbs % 10 := by omega
  have harith : ((m.natAbs / 100 : ℕ) : ℚ) + ((m.natAbs % 100 : ℕ) : ℚ) / 100 =
      ((m.natAbs : ℕ) : ℚ) / 100 := by
    have h1 : ((m.natAbs / 100 : ℕ) : ℚ) * 100 + ((m.natAbs % 100 : ℕ) : ℚ) =
        ((m.natAbs : ℕ) : ℚ) := by
      exact_mod_cast congrArg (fun n : ℕ => ((n : ℚ)))
        (show (m.natAbs / 100) * 100 + m.natAbs % 100 = m.natAbs by omega)
    field_simp
    linarith [h1]
  by_cases hm : m < 0
  · have habs : ((m.natAbs : ℕ) : ℚ) = -(m : ℚ) := by
      rw [Int.cast_natAbs, abs_of_neg hm]
      push_cast
      ring
    unfold renderHundredths
    rw [if_pos hm]
    have hshape : (['-'] ++ renderNat (m.natAbs / 100) ++ ['.'] ++
        [digitChar (m.natAbs / 10 % 10), digitChar (m.natAbs % 10)]) ++ rest =
        '-' :: (renderNat (m.natAbs / 100) ++
          ('.' :: ([digitChar (m.natAbs % 100 / 10), digitChar (m.natAbs % 100 % 10)] ++ rest))) := by
      rw [hd1, hd2]; simp
    rw [hshape, parseNum_cons_neg,
      parseNumCore_render true (m.natAbs / 100) (m.natAbs % 100) rest hfr hrest]
    simp only [eq_self_iff_true, if_true, Option.some.injEq, Prod.mk.injEq, and_true]
    rw [harith, habs]
    ring
  · have habs : ((m.natAbs : ℕ) : ℚ) = (m : ℚ) := by
      rw [Int.cast_natAbs, abs_of_nonneg (not_lt.mp hm)]
    unfold renderHundredths
    rw [if_neg hm]
    have hshape : (([] ++ renderNat (m.natAbs / 100) ++ ['.'] ++
        [digitChar (m.natAbs / 10 % 10), digitChar (m.natAbs % 10)]) ++ rest) =
        renderNat (m.natAbs / 100) ++
          ('.' :: ([digitChar (m.natAbs % 100 / 10), digitChar (m.natAbs % 100 % 10)] ++ rest)) := by
      rw [hd1, hd2]; simp
    rw [hshape]
    obtain ⟨c, tl, hN⟩ := List.exists_cons_of_ne_nil (renderNat_ne_nil (m.natAbs / 100))
    have hc : c ∈ renderNat (m.natAbs / 100) := by rw [hN]; exact List.mem_cons_self c tl
    obtain ⟨d, hd, rfl⟩ := mem_renderNat hc
    rw [hN, List.cons_append, parseNum_cons_of_ne _ (digitChar_facts d hd).2.2.2.2.1,
      ← List.cons_append, ← hN,
      parseNumCore_render false (m.natAbs / 100) (m.natAbs % 100) rest hfr hrest]
    simp only [Bool.false_eq_true, if_false, Option.some.injEq, Prod.mk.injEq, and_true]
    rw [harith, habs]
    ring


/-! ## Parsing back whole payloads -/

lemma parseStrBody_append (ks : List Char) (rest : List Char)
    (hks : ∀ c ∈ ks, c ≠ '"' ∧ c ≠ '\\') :
    parseStrBody (ks ++ '"' :: rest) = some (String.mk ks, rest) := by
  induction ks with
  | nil => simp [parseStrBody]
  | cons c ks ih =>
      have h1 := hks c (List.mem_cons_self c ks)
      rw [List.cons_append]
      simp only [parseStrBody]
      rw [if_neg h1.1, if_neg h1.2, ih (fun x hx => hks x (List.mem_cons_of_mem c hx))]
      simp

lemma parsePrim_quoted (s : String) (rest : List Char)
    (hs : ∀ c ∈ s.data, c ≠ '"' ∧ c ≠ '\\') :
    parsePrim ('"' :: (s.data ++ ('"' :: rest))) = some (JPrim.str s, rest) := by
  simp only [parsePrim, if_true]
  rw [parseStrBody_append s.data rest hs]
  simp

lemma parsePrim_renderHundredths (m : ℤ) (rest : List Char)
    (hrest : ∀ c cs, rest = c :: cs → c.isDigit = false ∧ c ≠ '.') :
    parsePrim (renderHundredths m ++ rest) = some (JPrim.num ((m : ℚ) / 100), rest) := by
  obtain ⟨c, tl, hR, hws, hq⟩ := renderHundredths_cons m
  rw [hR, List.cons_append]
  simp only [parsePrim]
  rw [if_neg hq, ← List.cons_append, ← hR, parseNum_renderHundredths m rest hrest]
  simp

lemma skipWs_renderHundredths (m : ℤ) (rest : List Char) :
    skipWs (renderHundredths m ++ rest) = renderHundredths m ++ rest := by
  obtain ⟨c, tl, hR, hws, _⟩ := renderHundredths_cons m
  rw [hR, List.cons_append, skipWs_cons _ hws]

lemma parseMember_shape (key : String) (hkey : ∀ c ∈ key.data, c ≠ '"' ∧ c ≠ '\\')
    (valRest : List Char) (v : JPrim) (r : List Char)
    (hv : parsePrim (skipWs valRest) = some (v, r)) :
    parseMember ('"' :: (key.data ++ ('"' :: ':' :: ' ' :: valRest))) = some ((key, v), r) := by
  unfold parseMember
  rw [skipWs_cons _ (by decide)]
  simp only [if_true]
  rw [parseStrBody_append key.data _ hkey]
  simp only []
  rw [skipWs_cons _ (by decide)]
  simp only [if_true]
  rw [skipWs_cons_ws _ (by decide), hv]

lemma parseMember_ws (l : List Char) : parseMember (' ' :: l) = parseMember l := by
  unfold parseMember
  rw [skipWs_cons_ws _ (by decide)]

lemma parseMembersAux_payload (f : Nat) (sid vt : String) (q : ℚ)
    (hsid : ∀ c ∈ sid.data, c ≠ '"' ∧ c ≠ '\\')
    (hv1 : skipWs (vt.data ++ [rbrace]) = vt.data ++ [rbrace])
    (hv2 : parsePrim (vt.data ++ [rbrace]) = some (JPrim.num q, [rbrace])) :
    parseMembersAux (f + 2)
      ('"' :: ("sensor_id".data ++ ('"' :: ':' :: ' ' :: '"' ::
        (sid.data ++ ('"' :: ',' :: ' ' :: '"' :: ("value".data ++
          ('"' :: ':' :: ' ' :: (vt.data ++ [rbrace])))))))) =
      some ([("sensor_id", JPrim.str sid), ("value", JPrim.num q)], [rbrace]) := by
  have hm1 : parseMember ('"' :: ("sensor_id".data ++ ('"' :: ':' :: ' ' :: '"' ::
      (sid.data ++ ('"' :: ',' :: ' ' :: '"' :: ("value".data ++
        ('"' :: ':' :: ' ' :: (vt.data ++ [rbrace])))))))) =
      some (("sensor_id", JPrim.str sid),
        ',' :: ' ' :: '"' :: ("value".data ++
          ('"' :: ':' :: ' ' :: (vt.data ++ [rbrace])))) := by
    refine parseMember_shape "sensor_id" (by decide) _ _ _ ?_
    rw [skipWs_cons _ (by decide)]
    exact parsePrim_quoted sid _ hsid
  have hm2 : parseMember (' ' :: '"' :: ("value".data ++
      ('"' :: ':' :: ' ' :: (vt.data ++ [rbrace])))) =
      some (("value", JPrim.num q), [rbrace]) := by
    rw [parseMember_ws]
    refine parseMember_shape "value" (by decide) _ _ _ ?_
    rw [hv1]
    exact hv2
  rw [show f + 2 = (f + 1) + 1 from rfl, parseMembersAux]
  rw [hm1]
  simp only []
  rw [skipWs_cons _ (by decide)]
  simp only [if_true]
  rw [parseMembersAux, hm2]
  simp only []
  rw [skipWs_cons _ (by decide)]
  simp only []
  rw [if_neg (by decide : ¬ (rbrace = ','))]

lemma parseFlatObj_mkPayload (sid vt : String) (q : ℚ)
    (hsid : ∀ c ∈ sid.data, c ≠ '"' ∧ c ≠ '\\')
    (hv1 : skipWs (vt.data ++ [rbrace]) = vt.data ++ [rbrace])
    (hv2 : parsePrim (vt.data ++ [rbrace]) = some (JPrim.num q, [rbrace])) :
    parseFlatObj (mkPayload sid vt) =
      some [("sensor_id", JPrim.str sid), ("value", JPrim.num q)] := by
  have hdata : (mkPayload sid vt).data =
      lbrace :: '"' :: ("sensor_id".data ++ ('"' :: ':' :: ' ' :: '"' ::
        (sid.data ++ ('"' :: ',' :: ' ' :: '"' :: ("value".data ++
          ('"' :: ':' :: ' ' :: (vt.data ++ [rbrace]))))))) := by
    simp only [mkPayload, String.data_append, List.append_assoc]
    rfl
  unfold parseFlatObj
  rw [hdata]
  rw [skipWs_cons _ (by decide)]
  simp only [if_true]
  rw [skipWs_cons _ (by decide)]
  simp only []
  rw [if_neg (by decide : ¬ (('"' : Char) = rbrace))]
  rw [show (lbrace :: '"' :: ("sensor_id".data ++ ('"' :: ':' :: ' ' :: '"' ::
      (sid.data ++ ('"' :: ',' :: ' ' :: '"' :: ("value".data ++
        ('"' :: ':' :: ' ' :: (vt.data ++ [rbrace])))))))).length + 1 =
      ("sensor_id".data ++ ('"' :: ':' :: ' ' :: '"' ::
      (sid.data ++ ('"' :: ',' :: ' ' :: '"' :: ("value".data ++
        ('"' :: ':' :: ' ' :: (vt.data ++ [rbrace]))))))).length + 1 + 2 from by
    simp [List.length_cons]]
  rw [parseMembersAux_payload _ sid vt q hsid hv1 hv2]
  simp only []
  rw [show skipWs [rbrace] = [rbrace] from by decide]
  simp only [if_true]
  rw [show skipWs ([] : List Char) = [] from rfl]
  simp

/-! ## Trace-level helper lemmas -/

lemma publishes_append (l1 l2 : List Event) :
    publishes (l1 ++ l2) = publishes l1 ++ publishes l2 := by
  induction l1 with
  | nil => rfl
  | cons e es ih => cases e <;> simp [publishes, ih]

lemma reconnect_connected : ∀ (inputs : List (Nat × Bool × Int)) (b : Bool)
    (tr : List Event) (c : Bool), reconnect b inputs = some (tr, c) → c = true := by
  intro inputs
  induction inputs with
  | nil =>
      intro b tr c h
      cases b with
      | false => simp [reconnect] at h
      | true =>
          simp only [reconnect, Option.some.injEq, Prod.mk.injEq] at h
          exact h.2.symm
  | cons a rest ih =>
      intro b tr c h
      cases b with
      | true =>
          simp only [reconnect, Option.some.injEq, Prod.mk.injEq] at h
          exact h.2.symm
      | false =>
          obtain ⟨r, ok, rc⟩ := a
          cases ok with
          | true =>
              have hr : reconnect false ((r, true, rc) :: rest) =
                  some ([Event.serialText "Attempting MQTT connection...",
                         Event.connectAttempt (clientIdOf r) true] ++
                        [Event.serialLine "connected"] ++ [], true) := by
                simp [reconnect]
              rw [hr] at h
              simp only [Option.some.injEq, Prod.mk.injEq] at h
              exact h.2.symm
          | false =>
              have hr : reconnect false ((r, false, rc) :: rest) =
                  (reconnect false rest).map (fun p =>
                    ([Event.serialText "Attempting MQTT connection...",
                      Event.connectAttempt (clientIdOf r) false] ++
                     [Event.serialText "failed, rc=", Event.serialText (toString rc),
                      Event.serialLine " try again in 5 seconds",
                      Event.delayMs 5000] ++ p.1, p.2)) := by
                simp [reconnect]
              rw [hr] at h
              cases hrec : reconnect false rest with
              | none => rw [hrec] at h; simp at h
              | some p =>
                  rw [hrec] at h
                  obtain ⟨p1, p2⟩ := p
                  simp only [Option.map_some', Option.some.injEq, Prod.mk.injEq] at h
                  exact h.2 ▸ ih false p1 p2 hrec

/-- Number of `delay(ms)` events in a trace. -/
def countDelay (ms : Nat) : List Event → Nat
  | [] => 0
  | Event.delayMs k :: es => (if k = ms then 1 else 0) + countDelay ms es
  | _ :: es => countDelay ms es

lemma countDelay_append (ms : Nat) (l1 l2 : List Event) :
    countDelay ms (l1 ++ l2) = countDelay ms l1 + countDelay ms l2 := by
  induction l1 with
  | nil => simp [countDelay]
  | cons e es ih =>
      cases e <;> simp [countDelay, ih]
      all_goals omega

lemma reconnect_publishes : ∀ (inputs : List (Nat × Bool × Int)) (b : Bool)
    (tr : List Event) (c : Bool), reconnect b inputs = some (tr, c) → publishes tr = [] := by
  intro inputs
  induction inputs with
  | nil =>
      intro b tr c h
      cases b with
      | false => simp [reconnect] at h
      | true =>
          simp only [reconnect, Option.some.injEq, Prod.mk.injEq] at h
          rw [← h.1]
          rfl
  | cons a rest ih =>
      intro b tr c h
      cases b with
      | true =>
          simp only [reconnect, Option.some.injEq, Prod.mk.injEq] at h
          rw [← h.1]
          rfl
      | false =>
          obtain ⟨r, ok, rc⟩ := a
          cases ok with
          | true =>
              have hr : reconnect false ((r, true, rc) :: rest) =
                  some ([Event.serialText "Attempting MQTT connection...",
                         Event.connectAttempt (clientIdOf r) true] ++
                        [Event.serialLine "connected"] ++ [], true) := by
                simp [reconnect]
              rw [hr] at h
              simp only [Option.some.injEq, Prod.mk.injEq] at h
              rw [← h.1]
              rfl
          | false =>
              have hr : reconnect false ((r, false, rc) :: rest) =
                  (reconnect false rest).map (fun p =>
                    ([Event.serialText "Attempting MQTT connection...",
                      Event.connectAttempt (clientIdOf r) false] ++
                     [Event.serialText "failed, rc=", Event.serialText (toString rc),
                      Event.serialLine " try again in 5 seconds",
                      Event.delayMs 5000] ++ p.1, p.2)) := by
                simp [reconnect]
              rw [hr] at h
              cases hrec : reconnect false rest with
              | none => rw [hrec] at h; simp at h
              | some p =>
                  rw [hrec] at h
                  obtain ⟨p1, p2⟩ := p
                  simp only [Option.map_some', Option.some.injEq, Prod.mk.injEq] at h
                  rw [← h.1, publishes_append, publishes_append,
                    ih false p1 p2 hrec]
                  rfl

lemma reconnect_replicate : ∀ n : Nat, ∃ tr,
    reconnect false (List.replicate n ((0 : Nat), false, (0 : Int)) ++
      [((0 : Nat), true, (0 : Int))]) = some (tr, true) ∧
    countDelay 5000 tr = n := by
  intro n
  induction n with
  | zero =>
      refine ⟨[Event.serialText "Attempting MQTT connection...",
               Event.connectAttempt (clientIdOf 0) true] ++
              [Event.serialLine "connected"] ++ [], ?_, by decide⟩
      simp [reconnect]
  | succ n ih =>
      obtain ⟨tr, htr, hcount⟩ := ih
      have hr : reconnect false (List.replicate (n + 1) ((0 : Nat), false, (0 : Int)) ++
          [((0 : Nat), true, (0 : Int))]) =
          (reconnect false (List.replicate n ((0 : Nat), false, (0 : Int)) ++
            [((0 : Nat), true, (0 : Int))])).map (fun p =>
            ([Event.serialText "Attempting MQTT connection...",
              Event.connectAttempt (clientIdOf 0) false] ++
             [Event.serialText "failed, rc=", Event.serialText (toString (0 : Int)),
              Event.serialLine " try again in 5 seconds",
              Event.delayMs 5000] ++ p.1, p.2)) := by
        rw [List.replicate_succ, List.cons_append]
        simp [reconnect]
      refine ⟨[Event.serialText "Attempting MQTT connection...",
               Event.connectAttempt (clientIdOf 0) false] ++
              [Event.serialText "failed, rc=", Event.serialText (toString (0 : Int)),
               Event.serialLine " try again in 5 seconds",
               Event.delayMs 5000] ++ tr, ?_, ?_⟩
      · rw [hr, htr]
        rfl
      · rw [countDelay_append, countDelay_append, hcount]
        norm_num [countDelay]
        omega

lemma wifiWait_isSome : ∀ sts : List Bool, (wifiWait sts).isSome = true ↔ true ∈ sts := by
  intro sts
  induction sts with
  | nil => simp [wifiWait]
  | cons s rest ih =>
      cases s with
      | true => simp [wifiWait]
      | false =>
          rw [show wifiWait (false :: rest) =
              (wifiWait rest).map (fun tr => Event.delayMs 500 :: Event.serialText "." :: tr)
            from by simp [wifiWait]]
          cases hwr : wifiWait rest with
          | none =>
              rw [hwr] at ih
              simp only [Option.isSome_none, Bool.false_eq_true, false_iff] at ih
              simp [ih]
          | some tr =>
              rw [hwr] at ih
              simp only [Option.isSome_some, true_iff] at ih
              simp [ih]

lemma wifiWait_replicate : ∀ n : Nat, ∃ tr,
    wifiWait (List.replicate n false ++ [true]) = some tr ∧ countDelay 500 tr = n := by
  intro n
  induction n with
  | zero => exact ⟨[], by simp [wifiWait], rfl⟩
  | succ n ih =>
      obtain ⟨tr, htr, hcount⟩ := ih
      refine ⟨Event.delayMs 500 :: Event.serialText "." :: tr, ?_, ?_⟩
      · rw [List.replicate_succ, List.cons_append]
        rw [show wifiWait (false :: (List.replicate n false ++ [true])) =
            (wifiWait (List.replicate n false ++ [true])).map
              (fun tr => Event.delayMs 500 :: Event.serialText "." :: tr)
          from by simp [wifiWait]]
        rw [htr]
        rfl
      · simp [countDelay, hcount]
        omega

lemma setup_wifi_isSome (sts : List Bool) :
    (setup_wifi sts).isSome = true ↔ true ∈ sts := by
  unfold setup_wifi
  rw [← wifiWait_isSome sts]
  cases hwr : wifiWait sts <;> simp

lemma setup_wifi_replicate : ∀ n : Nat, ∃ tr,
    setup_wifi (List.replicate n false ++ [true]) = some tr ∧ countDelay 500 tr = n := by
  intro n
  obtain ⟨tr, htr, hcount⟩ := wifiWait_replicate n
  refine ⟨[Event.delayMs 10, Event.serialLine "", Event.serialText "Connecting to ",
           Event.serialLine ssid, Event.wifiBegin ssid password] ++ tr ++
            [Event.serialLine "\nWiFi connected"], ?_, ?_⟩
  · unfold setup_wifi
    rw [htr]
    rfl
  · rw [countDelay_append, countDelay_append, hcount]
    norm_num [countDelay]

/-! ## Cycle-level lemmas -/

lemma loop_valid (conn : Bool) (mq : List (Nat × Bool × Int)) (qh qt : ℚ)
    (r : Nat) (p : Bool × Bool × Bool) (tr : List Event)
    (hl : loop conn mq (some qh) (some qt) r p = some tr) :
    publishes tr = [(topic_temp, mkPayload "dht22_01" (fmtFloat2 qt)),
                    (topic_humid, mkPayload "dht22_01" (fmtFloat2 qh)),
                    (topic_soil, mkPayload "soil_01" (fmtFloat2 (soilValue r)))] := by
  unfold loop at hl
  cases hrec : reconnect conn mq with
  | none => rw [hrec] at hl; simp at hl
  | some pr =>
      obtain ⟨tr0, c⟩ := pr
      rw [hrec] at hl
      simp only [Option.some.injEq] at hl
      subst hl
      rw [publishes_append, publishes_append,
        reconnect_publishes mq conn tr0 c hrec]
      rfl

lemma loop_invalid (conn : Bool) (mq : List (Nat × Bool × Int)) (h t : Option ℚ)
    (r : Nat) (p : Bool × Bool × Bool) (tr : List Event)
    (hnan : h = none ∨ t = none) (hl : loop conn mq h t r p = some tr) :
    publishes tr = [] := by
  unfold loop at hl
  cases hrec : reconnect conn mq with
  | none => rw [hrec] at hl; simp at hl
  | some pr =>
      obtain ⟨tr0, c⟩ := pr
      rw [hrec] at hl
      have hp0 := reconnect_publishes mq conn tr0 c hrec
      rcases h with _ | hv <;> rcases t with _ | tv
      · simp only [Option.some.injEq] at hl
        subst hl
        rw [publishes_append, publishes_append, hp0]
        rfl
      · simp only [Option.some.injEq] at hl
        subst hl
        rw [publishes_append, publishes_append, hp0]
        rfl
      · simp only [Option.some.injEq] at hl
        subst hl
        rw [publishes_append, publishes_append, hp0]
        rfl
      · rcases hnan with h2 | h2 <;> simp at h2

/-! ## Rounding and formatting shape -/

lemma hundredthsOf_nearest (q : ℚ) (m : ℤ) :
    |((hundredthsOf q : ℤ) : ℚ) / 100 - q| ≤ |((m : ℚ)) / 100 - q| ∧
    |((hundredthsOf q : ℤ) : ℚ) / 100 - q| ≤ 1 / 200 := by
  have h1 : ((hundredthsOf q : ℤ) : ℚ) ≤ q * 100 + 1 / 2 := Int.floor_le _
  have h2 : q * 100 + 1 / 2 < ((hundredthsOf q : ℤ) : ℚ) + 1 := Int.lt_floor_add_one _
  have hb : |((hundredthsOf q : ℤ) : ℚ) / 100 - q| ≤ 1 / 200 := by
    rw [abs_le]
    constructor <;> linarith
  refine ⟨?_, hb⟩
  have hb2 := abs_le.mp hb
  rcases lt_trichotomy m (hundredthsOf q) with hmn | rfl | hmn
  · have hm1 : (m : ℚ) + 1 ≤ ((hundredthsOf q : ℤ) : ℚ) := by
      exact_mod_cast Int.add_one_le_iff.mpr hmn
    have habs := neg_le_abs ((m : ℚ) / 100 - q)
    linarith
  · exact le_refl _
  · have hm1 : ((hundredthsOf q : ℤ) : ℚ) + 1 ≤ (m : ℚ) := by
      exact_mod_cast Int.add_one_le_iff.mpr hmn
    have habs := le_abs_self ((m : ℚ) / 100 - q)
    linarith

lemma renderHundredths_shape (m : ℤ) : ∃ pre, renderHundredths m =
    pre ++ '.' :: [digitChar (m.natAbs / 10 % 10), digitChar (m.natAbs % 10)] ∧
    ('.' ∉ pre) ∧ (digitChar (m.natAbs / 10 % 10)).isDigit = true ∧
    (digitChar (m.natAbs % 10)).isDigit = true := by
  refine ⟨(if m < 0 then ['-'] else []) ++ renderNat (m.natAbs / 100), ?_, ?_, ?_, ?_⟩
  · simp [renderHundredths, List.append_assoc]
  · intro hmem
    rcases List.mem_append.mp hmem with hmem | hmem
    · by_cases hm : m < 0
      · rw [if_pos hm] at hmem
        simp at hmem
      · rw [if_neg hm] at hmem
        simp at hmem
    · obtain ⟨d, hd, hdc⟩ := mem_renderNat hmem
      exact (digitChar_facts d hd).2.2.2.2.2 hdc.symm
  · exact (digitChar_facts _ (by omega)).1
  · exact (digitChar_facts _ (by omega)).1

/-! ## Concrete evaluations used by the witnesses -/

lemma fmtFloat2_at_245 : fmtFloat2 (49 / 2 : ℚ) = "24.50" := by
  have h : hundredthsOf (49 / 2 : ℚ) = 2450 := by norm_num [hundredthsOf]
  show String.mk (renderHundredths (hundredthsOf (49 / 2 : ℚ))) = "24.50"
  rw [h]
  decide

lemma fmtFloat2_at_60 : fmtFloat2 (60 : ℚ) = "60.00" := by
  have h : hundredthsOf (60 : ℚ) = 6000 := by norm_num [hundredthsOf]
  show String.mk (renderHundredths (hundredthsOf (60 : ℚ))) = "60.00"
  rw [h]
  decide

lemma soilValue_at_0 : soilValue 0 = (30 : ℚ) := by
  norm_num [soilValue, arduinoRandom]

lemma fmtFloat2_at_soil0 : fmtFloat2 (soilValue 0) = "30.00" := by
  have h : hundredthsOf (soilValue 0) = 3000 := by
    rw [soilValue_at_0]
    norm_num [hundredthsOf]
  show String.mk (renderHundredths (hundredthsOf (soilValue 0))) = "30.00"
  rw [h]
  decide

/-! ## The claims -/

/-- C1: in every cycle in which both the humidity and the temperature
read return a non-NaN value (and the cycle completes, i.e. the
reconnect loop did not block forever), exactly three publish calls
occur, one to each of the three fixed topics, in the order temperature,
then humidity, then soil moisture. -/
theorem C1_three_publishes_per_valid_cycle (conn : Bool)
    (mq : List (Nat × Bool × Int)) (qh qt : ℚ) (r : Nat)
    (p : Bool × Bool × Bool) (tr : List Event)
    (hl : loop conn mq (some qh) (some qt) r p = some tr) :
    publishes tr = [(topic_temp, mkPayload "dht22_01" (fmtFloat2 qt)),
                    (topic_humid, mkPayload "dht22_01" (fmtFloat2 qh)),
                    (topic_soil, mkPayload "soil_01" (fmtFloat2 (soilValue r)))] :=
  loop_valid conn mq qh qt r p tr hl

/-- Witness for C1: the cycle with humidity 60, temperature 24.5, soil
draw 0, connected broker, evaluated in full. -/
theorem C1_witness :
    loop true [] (some 60) (some (49 / 2)) 0 (true, true, true) =
      some [Event.tick,
        Event.publish topic_temp (mkPayload "dht22_01" "24.50"),
        Event.publish topic_humid (mkPayload "dht22_01" "60.00"),
        Event.publish topic_soil (mkPayload "soil_01" "30.00"),
        Event.serialText "Sent: Temp=", Event.serialText "24.50",
        Event.serialText " Hum=", Event.serialText "60.00",
        Event.serialText " Soil=", Event.serialLine "30.00",
        Event.delayMs 5000] ∧
    publishes [Event.tick,
        Event.publish topic_temp (mkPayload "dht22_01" "24.50"),
        Event.publish topic_humid (mkPayload "dht22_01" "60.00"),
        Event.publish topic_soil (mkPayload "soil_01" "30.00"),
        Event.serialText "Sent: Temp=", Event.serialText "24.50",
        Event.serialText " Hum=", Event.serialText "60.00",
        Event.serialText " Soil=", Event.serialLine "30.00",
        Event.delayMs 5000] =
      [(topic_temp, mkPayload "dht22_01" (fmtFloat2 (49 / 2))),
       (topic_humid, mkPayload "dht22_01" (fmtFloat2 60)),
       (topic_soil, mkPayload "soil_01" (fmtFloat2 (soilValue 0)))] := by
  have hl : loop true [] (some 60) (some (49 / 2)) 0 (true, true, true) =
      some [Event.tick,
        Event.publish topic_temp (mkPayload "dht22_01" "24.50"),
        Event.publish topic_humid (mkPayload "dht22_01" "60.00"),
        Event.publish topic_soil (mkPayload "soil_01" "30.00"),
        Event.serialText "Sent: Temp=", Event.serialText "24.50",
        Event.serialText " Hum=", Event.serialText "60.00",
        Event.serialText " Soil=", Event.serialLine "30.00",
        Event.delayMs 5000] := by
    simp [loop, reconnect, fmtFloat2_at_245, fmtFloat2_at_60, fmtFloat2_at_soil0]
  exact ⟨hl, C1_three_publishes_per_valid_cycle true [] 60 (49 / 2) 0 (true, true, true) _ hl⟩

/-- C2: in every cycle in which the humidity read or the temperature
read returns the NaN sentinel, zero publish calls occur: the cycle is
abandoned before all three publishes, with no retry within the cycle. -/
theorem C2_zero_publishes_on_nan (conn : Bool) (mq : List (Nat × Bool × Int))
    (h t : Option ℚ) (r : Nat) (p : Bool × Bool × Bool) (tr : List Event)
    (hnan : h = none ∨ t = none) (hl : loop conn mq h t r p = some tr) :
    publishes tr = [] :=
  loop_invalid conn mq h t r p tr hnan hl

/-- Witness for C2: humidity read fails (NaN), temperature 55. -/
theorem C2_witness :
    ((none : Option ℚ) = none ∨ (some (55 : ℚ) : Option ℚ) = none) ∧
    loop true [] none (some 55) 0 (true, true, true) =
      some [Event.tick, Event.serialLine "Failed to read from DHT sensor!"] ∧
    publishes [Event.tick, Event.serialLine "Failed to read from DHT sensor!"] = [] := by
  have hl : loop true [] none (some 55) 0 (true, true, true) =
      some [Event.tick, Event.serialLine "Failed to read from DHT sensor!"] := by
    simp [loop, reconnect]
  exact ⟨Or.inl rfl, hl,
    C2_zero_publishes_on_nan true [] none (some 55) 0 (true, true, true) _ (Or.inl rfl) hl⟩

/-- C3 (claim as stated is FALSE on the code): the early-exit path does
NOT perform the 5-second sleep.  On a NaN reading, `loop` hits the
`return` at sketch.ino line 73 before the `delay(5000)` at line 95, so
the failed cycle's trace contains no `delay` event at all, contradicting
"every cycle ends with the fixed 5-second sleep, including cycles that
are terminated early". -/
theorem C3_early_exit_skips_sleep :
    loop true [] none (some 55) 0 (true, true, true) =
      some [Event.tick, Event.serialLine "Failed to read from DHT sensor!"] ∧
    Event.delayMs 5000 ∉ [Event.tick, Event.serialLine "Failed to read from DHT sensor!"] := by
  constructor
  · simp [loop, reconnect]
  · decide

/-- C4: every generated soil-moisture reading is an integer value in
the closed-open range [30, 60). -/
theorem C4_soil_moisture_range : ∀ r : Nat, ∃ n : ℕ,
    soilValue r = (n : ℚ) ∧ 30 ≤ n ∧ n < 60 := by
  intro r
  refine ⟨30 + r % 30, rfl, by omega, ?_⟩
  have := Nat.mod_lt r (show 0 < 30 by norm_num)
  omega

/-- C5: the broker reconnect loop never returns while disconnected —
whenever it terminates, the final connected flag is true — and for
every failure count n there is a run with exactly n failed attempts,
each followed by a 5000 ms delay, that still terminates (no maximum
retry count). -/
theorem C5_reconnect_liveness :
    (∀ (b : Bool) (inputs : List (Nat × Bool × Int)),
      (reconnect b inputs).map Prod.snd = none ∨
      (reconnect b inputs).map Prod.snd = some true) ∧
    (∀ n : Nat, ∃ tr, reconnect false (List.replicate n ((0 : Nat), false, (0 : Int)) ++
      [((0 : Nat), true, (0 : Int))]) = some (tr, true) ∧ countDelay 5000 tr = n) := by
  constructor
  · intro b inputs
    cases hrec : reconnect b inputs with
    | none => left; rfl
    | some pr =>
        right
        obtain ⟨tr, c⟩ := pr
        rw [reconnect_connected inputs b tr c hrec]
        rfl
  · exact reconnect_replicate

/-- C6: the WiFi connect operation never returns failure — it returns
exactly when some polled link status is active — and for every n there
is a run with n inactive polls, each adding one fixed 500 ms delay,
that still terminates (no upper bound on attempts). -/
theorem C6_wifi_connect_blocking :
    (∀ sts : List Bool, (setup_wifi sts).isSome = true ↔ true ∈ sts) ∧
    (∀ n : Nat, ∃ tr, setup_wifi (List.replicate n false ++ [true]) = some tr ∧
      countDelay 500 tr = n) :=
  ⟨setup_wifi_isSome, setup_wifi_replicate⟩

/-- C7: every payload the program formats (with its two sensor ids)
parses back, via the JSON parser, to an object with exactly two fields:
`sensor_id`, the input id, and `value`, the input reading within the
formatting tolerance of half a hundredth. -/
theorem C7_payload_roundtrip : ∀ q : ℚ,
    parseFlatObj (mkPayload "dht22_01" (fmtFloat2 q)) =
      some [("sensor_id", JPrim.str "dht22_01"),
            ("value", JPrim.num (((hundredthsOf q : ℤ) : ℚ) / 100))] ∧
    parseFlatObj (mkPayload "soil_01" (fmtFloat2 q)) =
      some [("sensor_id", JPrim.str "soil_01"),
            ("value", JPrim.num (((hundredthsOf q : ℤ) : ℚ) / 100))] ∧
    |((hundredthsOf q : ℤ) : ℚ) / 100 - q| ≤ 1 / 200 := by
  intro q
  have hdata : (fmtFloat2 q).data = renderHundredths (hundredthsOf q) := rfl
  have hrest : ∀ c cs, ([rbrace] : List Char) = c :: cs → c.isDigit = false ∧ c ≠ '.' := by
    intro c cs hc
    cases hc
    exact ⟨by decide, by decide⟩
  refine ⟨?_, ?_, (hundredthsOf_nearest q 0).2⟩
  · refine parseFlatObj_mkPayload "dht22_01" (fmtFloat2 q) _ (by decide) ?_ ?_
    · rw [hdata]
      exact skipWs_renderHundredths _ _
    · rw [hdata]
      exact parsePrim_renderHundredths _ _ hrest
  · refine parseFlatObj_mkPayload "soil_01" (fmtFloat2 q) _ (by decide) ?_ ?_
    · rw [hdata]
      exact skipWs_renderHundredths _ _
    · rw [hdata]
      exact parsePrim_renderHundredths _ _ hrest

/-- C8: the return values of the three publish calls are discarded: the
cycle produces the identical outcome whatever the publish results are
(no retry, no logging, no escalation). -/
theorem C8_publish_result_discarded :
    ∀ (conn : Bool) (mq : List (Nat × Bool × Int)) (h t : Option ℚ) (r : Nat)
      (p p' : Bool × Bool × Bool), loop conn mq h t r p = loop conn mq h t r p' :=
  fun _ _ _ _ _ _ _ => rfl

/-- C9: the topic map is fixed: the three topic constants are exactly
the wire-contract strings, and every completed cycle publishes either
to nothing (NaN cycle) or exactly to those three topics in order; no
operation changes the topic strings (they are compile-time constants of
the embedding). -/
theorem C9_topic_map_fixed :
    topic_temp = "innagrika/field/raw/temperature" ∧
    topic_humid = "innagrika/field/raw/humidity" ∧
    topic_soil = "innagrika/field/raw/soil_moisture" ∧
    ∀ (conn : Bool) (mq : List (Nat × Bool × Int)) (h t : Option ℚ) (r : Nat)
      (p : Bool × Bool × Bool),
      (loop conn mq h t r p).map (fun tr => (publishes tr).map Prod.fst) = none ∨
      (loop conn mq h t r p).map (fun tr => (publishes tr).map Prod.fst) = some [] ∨
      (loop conn mq h t r p).map (fun tr => (publishes tr).map Prod.fst) =
        some ["innagrika/field/raw/temperature", "innagrika/field/raw/humidity",
              "innagrika/field/raw/soil_moisture"] := by
  refine ⟨rfl, rfl, rfl, ?_⟩
  intro conn mq h t r p
  cases hl : loop conn mq h t r p with
  | none => left; rfl
  | some tr =>
      rcases h with _ | hv <;> rcases t with _ | tv
      · right; left
        simp [loop_invalid conn mq none none r p tr (Or.inl rfl) hl]
      · right; left
        simp [loop_invalid conn mq none (some tv) r p tr (Or.inl rfl) hl]
      · right; left
        simp [loop_invalid conn mq (some hv) none r p tr (Or.inr rfl) hl]
      · right; right
        simp [loop_valid conn mq hv tv r p tr hl, topic_temp, topic_humid, topic_soil]

/-- C10 (implicit): every published payload's value text is the reading
formatted with exactly two digits after the decimal point; the number a
subscriber parses is the reading rounded to the nearest hundredth, which
is in general not the exact reading. -/
theorem C10_two_decimal_value_text :
    (∀ (conn : Bool) (mq : List (Nat × Bool × Int)) (qh qt : ℚ) (r : Nat)
        (p : Bool × Bool × Bool),
      (loop conn mq (some qh) (some qt) r p).map (fun tr => (publishes tr).map Prod.snd) = none ∨
      (loop conn mq (some qh) (some qt) r p).map (fun tr => (publishes tr).map Prod.snd) =
        some [mkPayload "dht22_01" (fmtFloat2 qt), mkPayload "dht22_01" (fmtFloat2 qh),
              mkPayload "soil_01" (fmtFloat2 (soilValue r))]) ∧
    (∀ q : ℚ, ∃ pre, (fmtFloat2 q).data =
        pre ++ '.' :: [digitChar ((hundredthsOf q).natAbs / 10 % 10),
                       digitChar ((hundredthsOf q).natAbs % 10)] ∧
      ('.' ∉ pre) ∧
      (digitChar ((hundredthsOf q).natAbs / 10 % 10)).isDigit = true ∧
      (digitChar ((hundredthsOf q).natAbs % 10)).isDigit = true) ∧
    (∀ q : ℚ, parseNum (fmtFloat2 q).data =
      some (((hundredthsOf q : ℤ) : ℚ) / 100, [])) ∧
    (∀ (q : ℚ) (m : ℤ),
      |((hundredthsOf q : ℤ) : ℚ) / 100 - q| ≤ |((m : ℚ)) / 100 - q|) ∧
    (((hundredthsOf (1 / 3) : ℤ) : ℚ) / 100 ≠ 1 / 3) := by
  refine ⟨?_, ?_, ?_, ?_, ?_⟩
  · intro conn mq qh qt r p
    cases hl : loop conn mq (some qh) (some qt) r p with
    | none => left; rfl
    | some tr =>
        right
        simp [loop_valid conn mq qh qt r p tr hl]
  · intro q
    exact renderHundredths_shape (hundredthsOf q)
  · intro q
    have hrest : ∀ c cs, ([] : List Char) = c :: cs → c.isDigit = false ∧ c ≠ '.' := by
      intro c cs hc
      exact absurd hc (by simp)
    have h := parseNum_renderHundredths (hundredthsOf q) [] hrest
    rw [List.append_nil] at h
    exact h
  · intro q m
    exact (hundredthsOf_nearest q m).1
  · have h33 : hundredthsOf (1 / 3 : ℚ) = 33 := by norm_num [hundredthsOf]
    rw [h33]
    norm_num
